import Mathlib

/-!
Shallow embedding of the tic-tac-toe engine (`src/models.py`, `src/factory.py`,
`src/routes.py`) and proofs about the claims of its specification.

Python mutable objects are modelled by explicit state passing: every method that
mutates `self` becomes a function returning the updated value.  `datetime.now()`
readings are modelled by an explicit `now : Nat` argument supplied by the caller.
Python `float` fields holding exact small quotients are modelled by `ℚ`.
-/

namespace TicTacToe

/-- `MATRIX_SIZE = 3` (models.py line 14). -/
def MATRIX_SIZE : Nat := 3

/-- `Status` enum (models.py lines 17-20). -/
inductive Status where
  | pending
  | in_progress
  | complete
deriving DecidableEq, Repr

/-- `Move` model (models.py lines 23-29).  `row`/`col` are Python ints, hence `Int`;
the `datetime` timestamp is modelled by a `Nat` clock reading. -/
structure Move where
  id : String
  gameId : String
  playerId : String
  row : Int
  col : Int
  timestamp : Nat
deriving DecidableEq, Repr

/-- `PlayerStats` model (models.py lines 32-40), all counters defaulting to 0. -/
structure PlayerStats where
  gamesPlayed : Nat := 0
  gamesWon : Nat := 0
  gamesLost : Nat := 0
  gamesDrawn : Nat := 0
  totalMoves : Nat := 0
  averageMovesPerWin : ℚ := 0
  winRate : ℚ := 0
  efficiency : ℚ := 0
deriving DecidableEq, Repr

/-- `Player` model (models.py lines 43-47).  In the source `stats` is declared
`Optional[PlayerStats]`, but every player handed to the engine is constructed by
`PlayerFactory.get_or_create_player` with a fresh `PlayerStats()`, and
`update_stats` dereferences it unconditionally; it is modelled as present. -/
structure Player where
  id : String
  name : Option String := none
  email : Option String := none
  stats : PlayerStats := {}
deriving DecidableEq, Repr

instance : Inhabited Player := ⟨{ id := "" }⟩

/-- `Player.update_stats` (models.py lines 49-68), as a pure function on the
mutated `PlayerStats` value. -/
def update_stats (s : PlayerStats) (won : Bool) (moves : Nat) (draw : Bool) : PlayerStats :=
  let s1 : PlayerStats :=
    { s with gamesPlayed := s.gamesPlayed + 1, totalMoves := s.totalMoves + moves }
  let s2 : PlayerStats :=
    if won then { s1 with gamesWon := s1.gamesWon + 1 }
    else if draw then { s1 with gamesDrawn := s1.gamesDrawn + 1 }
    else { s1 with gamesLost := s1.gamesLost + 1 }
  if s2.gamesWon > 0 then
    { s2 with
      averageMovesPerWin := (s2.totalMoves : ℚ) / (s2.gamesWon : ℚ)
      efficiency := (s2.totalMoves : ℚ) / (s2.gamesWon : ℚ)
      winRate := (s2.gamesWon : ℚ) / (s2.gamesPlayed : ℚ) }
  else
    { s2 with averageMovesPerWin := 0, efficiency := 0, winRate := 0 }

/-- The board: `List[List[str]]` with `""` marking an empty cell (models.py line 76). -/
abbrev Board := List (List String)

/-- Indexing `b[i][j]`, total with default `""`; every board built by the engine
is `MATRIX_SIZE × MATRIX_SIZE` so the default is never consulted on engine paths. -/
def cell (b : Board) (i j : Nat) : String :=
  (b.getD i []).getD j ""

/-- Assignment `b[i][j] = s`. -/
def setCell (b : Board) (i j : Nat) (s : String) : Board :=
  b.set i ((b.getD i []).set j s)

/-- The empty `MATRIX_SIZE × MATRIX_SIZE` board (models.py line 76 default factory). -/
def emptyBoard : Board :=
  List.replicate MATRIX_SIZE (List.replicate MATRIX_SIZE "")

/-- A board is well-formed when it is exactly `MATRIX_SIZE` rows of
`MATRIX_SIZE` cells, as every board built by the engine is. -/
def BoardWF (b : Board) : Prop :=
  b.length = MATRIX_SIZE ∧ ∀ r ∈ b, r.length = MATRIX_SIZE

/-- `Game` model (models.py lines 71-83); the `asyncio.Lock` field and the
timestamps' `datetime` type are modelled away (timestamps are `Nat`). -/
structure Game where
  id : Nat
  name : Option String := none
  status : Status := Status.pending
  board : Board := emptyBoard
  players : List Player := []
  currentPlayerId : Option String := none
  winnerId : Option String := none
  createdAt : Nat := 0
  updatedAt : Nat := 0
  moves : List Move := []
deriving DecidableEq, Repr

/-- `b[i][0] != "" and all(b[i][j] == b[i][0] for j in range(n))` (models.py line 93). -/
def rowWin (b : Board) (i : Nat) : Bool :=
  cell b i 0 ≠ "" && (List.range MATRIX_SIZE).all (fun j => cell b i j == cell b i 0)

/-- `b[0][j] != "" and all(b[i][j] == b[0][j] for i in range(n))` (models.py line 96). -/
def colWin (b : Board) (j : Nat) : Bool :=
  cell b 0 j ≠ "" && (List.range MATRIX_SIZE).all (fun i => cell b i j == cell b 0 j)

/-- `b[0][0] != "" and all(b[i][i] == b[0][0] for i in range(n))` (models.py line 98). -/
def mainDiagWin (b : Board) : Bool :=
  cell b 0 0 ≠ "" && (List.range MATRIX_SIZE).all (fun i => cell b i i == cell b 0 0)

/-- `b[0][n-1] != "" and all(b[i][n-1-i] == b[0][n-1] for i in range(n))` (models.py line 100). -/
def antiDiagWin (b : Board) : Bool :=
  cell b 0 (MATRIX_SIZE - 1) ≠ "" &&
    (List.range MATRIX_SIZE).all (fun i => cell b i (MATRIX_SIZE - 1 - i) == cell b 0 (MATRIX_SIZE - 1))

/-- `all(cell != "" for row in b for cell in row)` (models.py line 102). -/
def boardFull (b : Board) : Bool :=
  b.all (fun row => row.all (fun c => c ≠ ""))

/-- `Game.check_if_game_is_over` (models.py lines 89-104): first winning row in
index order, then first winning column, then the diagonals, then the tie check. -/
def check_if_game_is_over (b : Board) : Option String :=
  match (List.range MATRIX_SIZE).find? (fun i => rowWin b i) with
  | some i => some ("Row " ++ toString i ++ " forms a line! Game is Over!")
  | none =>
    match (List.range MATRIX_SIZE).find? (fun j => colWin b j) with
    | some j => some ("Column " ++ toString j ++ " forms a line! Game is Over!")
    | none =>
      if mainDiagWin b then some "Main diagonal forms a line! Game is Over!"
      else if antiDiagWin b then some "Anti-diagonal forms a line! Game is Over!"
      else if boardFull b then some "TIE"
      else none

/-- `Game.end_game` (models.py lines 155-163).  For each participant the source
computes `won = player.id == self.winnerId` (a Python `bool`; comparing a `str`
with `None` yields `False`) and then `draw = won is None`, which is always
`False` because `won` is a `bool`, so the `draw` argument passed to
`update_stats` is the constant `false`. -/
def end_game (g : Game) : Game :=
  { g with players := g.players.map (fun player =>
      let moves_in_game := (g.moves.filter (fun m => m.playerId == player.id)).length
      let won : Bool := some player.id == g.winnerId
      let draw : Bool := false
      { player with stats := update_stats player.stats won moves_in_game draw }) }

/-- `Game.make_move` (models.py lines 106-153).  `Except.error` models the raised
`ValueError`; `Except.ok (g, accepted)` models a normal return with the
post-call game state.  `now` models the `datetime.now()` readings taken during
the call. -/
def make_move (g : Game) (player_id : String) (row col : Int) (now : Nat) :
    Except String (Game × Bool) :=
  if g.status ≠ Status.in_progress then Except.ok (g, false)
  else if g.currentPlayerId ≠ some player_id then Except.ok (g, false)
  else if row < 0 ∨ row ≥ (MATRIX_SIZE : Int) ∨ col < 0 ∨ col ≥ (MATRIX_SIZE : Int) then
    Except.ok (g, false)
  else if cell g.board row.toNat col.toNat ≠ "" then Except.ok (g, false)
  else
    match g.players.findIdx? (fun player => player.id == player_id) with
    | none => Except.error ("Player ID " ++ player_id ++ " not found in the game.")
    | some player_index =>
      let symbol := if player_index = 0 then "X" else "O"
      let g1 : Game :=
        { g with
          board := setCell g.board row.toNat col.toNat symbol
          updatedAt := now
          moves := g.moves ++
            [{ id := "m-" ++ toString (g.moves.length + 1)
               gameId := toString g.id
               playerId := player_id
               row := row
               col := col
               timestamp := now }] }
      match check_if_game_is_over g1.board with
      | some over =>
        let g2 : Game :=
          { g1 with
            status := Status.complete
            winnerId := if over ≠ "TIE" then some player_id else none }
        Except.ok (end_game g2, true)
      | none =>
        let g2 : Game :=
          { g1 with
            currentPlayerId :=
              if g1.currentPlayerId = some (g1.players.getD 0 default).id then
                some (g1.players.getD 1 default).id
              else
                some (g1.players.getD 0 default).id }
        Except.ok (g2, true)

/-- Outcome of the `join_game` route (routes.py lines 73-95): the two
`HTTPException(400, ...)` rejections and the success message. -/
inductive JoinResult where
  | gameFull
  | alreadyInGame
  | success
deriving DecidableEq, Repr

/-- `join_game` route body (routes.py lines 73-95), given the `Player` returned
by `player_factory.get_or_create_player` for the request's `playerId`. -/
def join_game (g : Game) (player : Player) : JoinResult × Game :=
  if g.players.length ≥ 2 then (JoinResult.gameFull, g)
  else if g.players.any (fun p => p.id == player.id) then (JoinResult.alreadyInGame, g)
  else
    let g1 : Game :=
      if g.players.all (fun p => p.id ≠ player.id) then
        { g with players := g.players ++ [player] }
      else g
    let g2 : Game :=
      if g1.players.length = 2 then
        { g1 with
          status := Status.in_progress
          currentPlayerId := some (g1.players.getD 0 default).id }
      else g1
    (JoinResult.success, g2)

/-- `GameFactory` (factory.py lines 10-42): the `_games` dict modelled as an
association list in insertion order, with the `_next_id` counter. -/
structure GameFactory where
  games : List (Nat × Game) := []
  next_id : Nat := 1
deriving Repr

/-- `dict.get` on the `_games` mapping. -/
def GameFactory.get_game (f : GameFactory) (game_id : Nat) : Option Game :=
  (f.games.find? (fun e => e.1 == game_id)).map Prod.snd

/-- `GameFactory.create_game` (factory.py lines 16-23): allocates `_next_id`,
increments it, stores and returns a fresh `PENDING` game. -/
def GameFactory.create_game (f : GameFactory) (name : String) : Game × GameFactory :=
  let game_id := f.next_id
  let game : Game := { id := game_id, name := some name, status := Status.pending }
  (game, { games := f.games ++ [(game_id, game)], next_id := game_id + 1 })

/-- `GameFactory.remove_game` (factory.py lines 29-32):
`self._games.pop(game_id, None) is not None` — unconditional removal. -/
def GameFactory.remove_game (f : GameFactory) (game_id : Nat) : Bool × GameFactory :=
  ((f.games.find? (fun e => e.1 == game_id)).isSome,
   { f with games := f.games.filter (fun e => e.1 ≠ game_id) })

/-- Outcome of the `delete_game` route (routes.py lines 126-137). -/
inductive DeleteResult where
  | notFound
  | activeGame
  | deleted
deriving DecidableEq, Repr

/-- `delete_game` route body (routes.py lines 126-137): 404 when absent, 400 when
the game is `IN_PROGRESS`, otherwise `remove_game`. -/
def delete_game (f : GameFactory) (game_id : Nat) : DeleteResult × GameFactory :=
  match f.get_game game_id with
  | none => (DeleteResult.notFound, f)
  | some game =>
    if game.status = Status.in_progress then (DeleteResult.activeGame, f)
    else
      let r := f.remove_game game_id
      if r.1 then (DeleteResult.deleted, r.2) else (DeleteResult.notFound, r.2)

instance : Inhabited Move :=
  ⟨{ id := "", gameId := "", playerId := "", row := 0, col := 0, timestamp := 0 }⟩

/-- Drives a game through a list of `(playerId, row, col)` move requests,
the clock advancing by one between moves; a rejected move aborts the run. -/
def runMoves (g : Game) (ms : List (String × Int × Int)) (t : Nat) : Except String Game :=
  match ms with
  | [] => Except.ok g
  | (pid, r, c) :: rest =>
    match make_move g pid r c t with
    | Except.ok (g2, accepted) =>
      if accepted then runMoves g2 rest (t + 1) else Except.error "rejected"
    | Except.error e => Except.error e

/-- The first player of the worked scenarios, as built by
`PlayerFactory.get_or_create_player` (fresh zero stats). -/
def playerA : Player := { id := "A", stats := {} }

/-- The second player of the worked scenarios. -/
def playerB : Player := { id := "B", stats := {} }

/-- A freshly created game with both players joined: `IN_PROGRESS`, `A` to move. -/
def startedGame : Game :=
  (join_game (join_game (GameFactory.create_game {} "g1").1 playerA).2 playerB).2

/-- An alternating full-game move sequence with no completed line: a draw. -/
def drawMoves : List (String × Int × Int) :=
  [("A", 0, 0), ("B", 0, 1), ("A", 0, 2), ("B", 1, 1), ("A", 1, 0),
   ("B", 1, 2), ("A", 2, 1), ("B", 2, 0), ("A", 2, 2)]

/-- C1: when a move completes a game, stat propagation increments, for each of
the two participants, `gamesPlayed` and `totalMoves` and exactly one of the
three outcome counters — `gamesDrawn` when the completed game is a draw.  The
code violates the draw case: in `Game.end_game` the variable `won` is a `bool`,
so `draw = won is None` is always `False` and `update_stats` receives
`draw=False`; a drawn game therefore increments `gamesLost` for both
participants and leaves `gamesDrawn` at 0.  This theorem evaluates the engine on
a fully played-out drawn game and exhibits the wrong counters. -/
theorem end_game_draw_miscounts :
    (runMoves startedGame drawMoves 1).map (fun g =>
      (g.status, g.winnerId, g.players.map (fun p =>
        (p.stats.gamesPlayed, p.stats.gamesWon, p.stats.gamesDrawn, p.stats.gamesLost))))
      = Except.ok (Status.complete, none, [(1, 0, 0, 1), (1, 0, 0, 1)]) := by
  rfl

/-- C5: `gamesWon + gamesLost + gamesDrawn = gamesPlayed` holds for freshly
created zero-valued stats and is preserved by `update_stats` for every
combination of the `won` and `draw` arguments. -/
theorem stats_invariant_preserved :
    (({} : PlayerStats).gamesWon + ({} : PlayerStats).gamesLost + ({} : PlayerStats).gamesDrawn
        = ({} : PlayerStats).gamesPlayed) ∧
    (∀ (s : PlayerStats) (won draw : Bool) (moves : Nat),
      s.gamesWon + s.gamesLost + s.gamesDrawn = s.gamesPlayed →
      (update_stats s won moves draw).gamesWon + (update_stats s won moves draw).gamesLost
          + (update_stats s won moves draw).gamesDrawn
        = (update_stats s won moves draw).gamesPlayed) := by
  refine ⟨rfl, ?_⟩
  intro s won draw moves h
  unfold update_stats
  cases won <;> cases draw <;>
    simp only [apply_ite PlayerStats.gamesPlayed, apply_ite PlayerStats.gamesWon,
      apply_ite PlayerStats.gamesLost, apply_ite PlayerStats.gamesDrawn] <;>
    simp <;> omega

/-- Witness instantiating C5's preservation step at concrete stats. -/
theorem stats_invariant_preserved_witness :
    (update_stats {} true 3 false).gamesWon + (update_stats {} true 3 false).gamesLost
        + (update_stats {} true 3 false).gamesDrawn
      = (update_stats {} true 3 false).gamesPlayed :=
  stats_invariant_preserved.2 {} true false 3 (by decide)

theorem make_move_rejected_eq (g : Game) (pid : String) (row col : Int) (now : Nat)
    (h : g.status ≠ Status.in_progress ∨ g.currentPlayerId ≠ some pid ∨
      row < 0 ∨ (MATRIX_SIZE : Int) ≤ row ∨ col < 0 ∨ (MATRIX_SIZE : Int) ≤ col ∨
      cell g.board row.toNat col.toNat ≠ "") :
    make_move g pid row col now = Except.ok (g, false) := by
  unfold make_move
  split
  · rfl
  split
  · rfl
  split
  · rfl
  split
  · rfl
  exfalso
  rename_i h1 h2 h3 h4
  rcases h with h | h | h | h | h | h | h
  · exact h1 h
  · exact h2 h
  · exact h3 (Or.inl h)
  · exact h3 (Or.inr (Or.inl (not_lt.mp (fun hc => (not_le.mpr hc) h))))
  · exact h3 (Or.inr (Or.inr (Or.inl h)))
  · exact h3 (Or.inr (Or.inr (Or.inr (not_lt.mp (fun hc => (not_le.mpr hc) h)))))
  · exact h4 h

/-- C3: a `make_move` call rejected by the status, turn, coordinate-range or
occupancy validation returns `False` without raising, with the game — board,
current turn, status, winner and move history — unchanged. -/
theorem make_move_rejection_no_change (g : Game) (pid : String) (row col : Int) (now : Nat)
    (h : g.status ≠ Status.in_progress ∨ g.currentPlayerId ≠ some pid ∨
      row < 0 ∨ (MATRIX_SIZE : Int) ≤ row ∨ col < 0 ∨ (MATRIX_SIZE : Int) ≤ col ∨
      cell g.board row.toNat col.toNat ≠ "") :
    make_move g pid row col now = Except.ok (g, false) :=
  make_move_rejected_eq g pid row col now h

/-- Witness for C3: the spec's own scenario, `row = 3` on a 3×3 board. -/
theorem make_move_rejection_no_change_witness :
    make_move startedGame "A" 3 0 1 = Except.ok (startedGame, false) :=
  make_move_rejection_no_change startedGame "A" 3 0 1 (by decide)

/-- C7: `join` is idempotent and capacity-bounded — a join with an identifier
already present leaves the game (in particular its participant list) unchanged;
with two participants any further join is rejected as full, the list staying as
it is; and a second distinct player joining sets `IN_PROGRESS` and gives the
turn to the first-joined player. -/
theorem join_game_idempotent_capacity (g : Game) (player : Player) :
    ((∃ p ∈ g.players, p.id = player.id) → (join_game g player).2 = g) ∧
    (g.players.length = 2 → join_game g player = (JoinResult.gameFull, g)) ∧
    (∀ p0 : Player, g.players = [p0] → p0.id ≠ player.id →
      (join_game g player).1 = JoinResult.success ∧
      (join_game g player).2.players = [p0, player] ∧
      (join_game g player).2.status = Status.in_progress ∧
      (join_game g player).2.currentPlayerId = some p0.id) := by
  refine ⟨?_, ?_, ?_⟩
  · rintro ⟨p, hp, hid⟩
    unfold join_game
    split
    · rfl
    split
    · rfl
    rename_i hany
    exact absurd (List.any_eq_true.mpr ⟨p, hp, by simp [hid]⟩) hany
  · intro hlen
    unfold join_game
    rw [if_pos (by omega)]
  · intro p0 hps hne
    unfold join_game
    rw [hps]
    simp [hne, Ne.symm hne]

/-- Witness for C7 at concrete games: a duplicate join is a no-op, a third
player is rejected on a full game, and `B` joining `A`'s game starts it. -/
theorem join_game_idempotent_capacity_witness :
    (join_game startedGame playerB).2 = startedGame ∧
    join_game startedGame { id := "C" } = (JoinResult.gameFull, startedGame) ∧
    (join_game (join_game (GameFactory.create_game {} "g1").1 playerA).2 playerB).2.status
      = Status.in_progress := by
  refine ⟨?_, ?_, ?_⟩
  · exact (join_game_idempotent_capacity startedGame playerB).1 ⟨playerB, by decide, rfl⟩
  · exact (join_game_idempotent_capacity startedGame { id := "C" }).2.1 (by decide)
  · exact ((join_game_idempotent_capacity (join_game (GameFactory.create_game {} "g1").1 playerA).2
      playerB).2.2 playerA (by decide) (by decide)).2.2.1

/-- A registry state holding a single `IN_PROGRESS` game under identifier 1, as
left behind by `create_game` followed by both joins (the stored object is the
mutated game). -/
def inProgressFactory : GameFactory :=
  { games := [(1, startedGame)], next_id := 2 }

/-- C8 counterexample: the claim says `GameFactory.remove_game` itself rejects
removal of an `IN_PROGRESS` game, leaving it stored.  On a registry holding an
`IN_PROGRESS` game the code removes it and reports `True`: `remove_game` pops
unconditionally, with no status check. -/
theorem remove_game_ignores_status_counterexample :
    (inProgressFactory.get_game 1).map Game.status = some Status.in_progress ∧
    (inProgressFactory.remove_game 1).1 = true ∧
    (inProgressFactory.remove_game 1).2.games = [] := by
  refine ⟨rfl, rfl, ?_⟩
  rfl

/-- C8 amended: the registry's `remove_game` removes unconditionally — it
returns whether the identifier was present, afterwards the identifier is gone,
and an absent identifier yields `False` with the registry unchanged; the
"no removal while `IN_PROGRESS`" policy lives in the boundary layer's
`delete_game` handler, which rejects an active game before calling
`remove_game`, leaving the registry unchanged. -/
theorem remove_game_unconditional_policy_in_route (f : GameFactory) (gid : Nat) :
    ((f.remove_game gid).1 = (f.get_game gid).isSome) ∧
    ((f.remove_game gid).2.get_game gid = none) ∧
    (∀ g, f.get_game gid = some g → g.status = Status.in_progress →
      delete_game f gid = (DeleteResult.activeGame, f)) ∧
    (f.get_game gid = none → f.remove_game gid = (false, f)) := by
  refine ⟨?_, ?_, ?_, ?_⟩
  · simp [GameFactory.remove_game, GameFactory.get_game]
  · simp only [GameFactory.remove_game, GameFactory.get_game]
    have hfind : ((f.games.filter (fun e => e.1 ≠ gid)).find? (fun e => e.1 == gid)) = none := by
      rw [List.find?_eq_none]
      intro e he
      have := List.mem_filter.mp he
      simpa using this.2
    rw [hfind]
    rfl
  · intro g hget hstatus
    unfold delete_game
    rw [hget]
    simp [hstatus]
  · intro hget
    have hnone : f.games.find? (fun e => e.1 == gid) = none := by
      by_contra hc
      rcases Option.ne_none_iff_exists.mp hc with ⟨e, he⟩
      rw [GameFactory.get_game, ← he] at hget
      simp at hget
    have hall : ∀ e ∈ f.games, e.1 ≠ gid := by
      intro e he
      have := List.find?_eq_none.mp hnone e he
      simpa using this
    unfold GameFactory.remove_game
    rw [hnone]
    simp only [Option.isSome_none]
    have : f.games.filter (fun e => e.1 ≠ gid) = f.games :=
      List.filter_eq_self.mpr (fun a ha => by simpa using hall a ha)
    rw [this]

/-- Witness for C8's amended claim: the boundary handler refuses to delete the
`IN_PROGRESS` game, and removing an absent identifier is a `False` no-op. -/
theorem remove_game_unconditional_policy_in_route_witness :
    delete_game inProgressFactory 1 = (DeleteResult.activeGame, inProgressFactory) ∧
    GameFactory.remove_game inProgressFactory 7 = (false, inProgressFactory) := by
  refine ⟨?_, ?_⟩
  · exact (remove_game_unconditional_policy_in_route inProgressFactory 1).2.2.1 startedGame rfl
      (by decide)
  · exact (remove_game_unconditional_policy_in_route inProgressFactory 7).2.2.2 (by decide)

theorem cell_setCell_self (b : Board) (i j : Nat) (s : String)
    (hi : i < b.length) (hj : j < (b.getD i []).length) :
    cell (setCell b i j s) i j = s := by
  unfold cell setCell
  simp only [List.getD_eq_getElem?_getD] at hj ⊢
  rw [List.getElem?_set_eq_of_lt _ hi, Option.getD_some, List.getElem?_set_eq_of_lt _ hj,
    Option.getD_some]

theorem BoardWF.row_length (b : Board) (hwf : BoardWF b) (i : Nat) (hi : i < MATRIX_SIZE) :
    (b.getD i []).length = MATRIX_SIZE := by
  have hib : i < b.length := by rw [hwf.1]; exact hi
  rw [List.getD_eq_getElem?_getD, List.getElem?_eq_getElem hib, Option.getD_some]
  exact hwf.2 _ (List.getElem_mem hib)

/-- C6: `make_move` raises the distinguished `ValueError` exactly when the
status, turn, range and occupancy validations all pass but the acting player is
not among the joined participants; whenever the current-turn identifier belongs
to one of the joined players this branch is unreachable, so the call never
raises. -/
theorem make_move_error_characterization (g : Game) (pid : String) (row col : Int) (now : Nat) :
    ((∃ e, make_move g pid row col now = Except.error e) ↔
      (g.status = Status.in_progress ∧ g.currentPlayerId = some pid ∧
       0 ≤ row ∧ row < (MATRIX_SIZE : Int) ∧ 0 ≤ col ∧ col < (MATRIX_SIZE : Int) ∧
       cell g.board row.toNat col.toNat = "" ∧ ∀ p ∈ g.players, p.id ≠ pid)) ∧
    ((∃ p ∈ g.players, g.currentPlayerId = some p.id) →
      ∀ e, make_move g pid row col now ≠ Except.error e) := by
  have main : (∃ e, make_move g pid row col now = Except.error e) ↔
      (g.status = Status.in_progress ∧ g.currentPlayerId = some pid ∧
       0 ≤ row ∧ row < (MATRIX_SIZE : Int) ∧ 0 ≤ col ∧ col < (MATRIX_SIZE : Int) ∧
       cell g.board row.toNat col.toNat = "" ∧ ∀ p ∈ g.players, p.id ≠ pid) := by
    by_cases h1 : g.status = Status.in_progress
    case neg =>
      rw [make_move_rejected_eq g pid row col now (Or.inl h1)]
      constructor
      · rintro ⟨e, he⟩
        exact absurd he (by simp)
      · rintro ⟨hs, _⟩
        exact absurd hs h1
    by_cases h2 : g.currentPlayerId = some pid
    case neg =>
      rw [make_move_rejected_eq g pid row col now (Or.inr (Or.inl h2))]
      constructor
      · rintro ⟨e, he⟩
        exact absurd he (by simp)
      · rintro ⟨_, hc, _⟩
        exact absurd hc h2
    by_cases h3 : row < 0 ∨ (MATRIX_SIZE : Int) ≤ row ∨ col < 0 ∨ (MATRIX_SIZE : Int) ≤ col
    case pos =>
      rw [make_move_rejected_eq g pid row col now (by tauto)]
      constructor
      · rintro ⟨e, he⟩
        exact absurd he (by simp)
      · rintro ⟨_, _, hr0, hr3, hc0, hc3, _⟩
        omega
    by_cases h4 : cell g.board row.toNat col.toNat = ""
    case neg =>
      rw [make_move_rejected_eq g pid row col now (by tauto)]
      constructor
      · rintro ⟨e, he⟩
        exact absurd he (by simp)
      · rintro ⟨_, _, _, _, _, _, hcell, _⟩
        exact absurd hcell h4
    unfold make_move
    rw [if_neg (not_not_intro h1), if_neg (not_not_intro h2), if_neg (by omega),
      if_neg (not_not_intro h4)]
    cases hidx : g.players.findIdx? (fun player => player.id == pid) with
    | none =>
      simp only [hidx]
      constructor
      · intro _
        refine ⟨h1, h2, by omega, by omega, by omega, by omega, h4, ?_⟩
        intro p hp
        have := List.findIdx?_eq_none_iff.mp hidx p hp
        simpa using this
      · intro _
        exact ⟨_, rfl⟩
    | some idx =>
      simp only [hidx]
      constructor
      · rintro ⟨e, he⟩
        split at he
        · exact absurd he (by simp)
        · exact absurd he (by simp)
      · rintro ⟨_, _, _, _, _, _, _, hall⟩
        have : g.players.findIdx? (fun player => player.id == pid) = none := by
          rw [List.findIdx?_eq_none_iff]
          intro p hp
          simpa using hall p hp
        rw [hidx] at this
        exact absurd this (by simp)
  refine ⟨main, ?_⟩
  rintro ⟨p, hp, hcur⟩ e he
  rcases main.mp ⟨e, he⟩ with ⟨_, hcur2, _, _, _, _, _, hall⟩
  rw [hcur] at hcur2
  exact hall p hp (Option.some.inj hcur2)

/-- Witness for C6: on a game whose turn holder is a joined player, no
`make_move` call errors. -/
theorem make_move_error_characterization_witness :
    ∀ e, make_move startedGame "B" 1 1 1 ≠ Except.error e :=
  (make_move_error_characterization startedGame "B" 1 1 1).2 ⟨playerA, by decide, by decide⟩

instance (b : Board) : Decidable (BoardWF b) := by
  unfold BoardWF
  infer_instance

theorem end_game_board (g : Game) : (end_game g).board = g.board := rfl

theorem end_game_status (g : Game) : (end_game g).status = g.status := rfl

theorem end_game_winnerId (g : Game) : (end_game g).winnerId = g.winnerId := rfl

theorem end_game_currentPlayerId (g : Game) :
    (end_game g).currentPlayerId = g.currentPlayerId := rfl

theorem end_game_moves (g : Game) : (end_game g).moves = g.moves := rfl

/-- C2: an accepted move writes the acting player's symbol ("X" for the
first-joined participant, "O" otherwise) into the chosen empty cell and appends
the `Move` record; if the resulting board is terminal the status becomes
`COMPLETE`, the winner is the acting player unless the result is a draw, and the
turn is not advanced; otherwise the turn flips to the other participant. -/
theorem make_move_accepted_postconditions (g : Game) (p0 p1 : Player) (pid : String)
    (row col : Int) (now : Nat) (g2 : Game)
    (hplayers : g.players = [p0, p1]) (hne : p0.id ≠ p1.id) (hwf : BoardWF g.board)
    (hres : make_move g pid row col now = Except.ok (g2, true)) :
    cell g.board row.toNat col.toNat = "" ∧
    cell g2.board row.toNat col.toNat = (if p0.id = pid then "X" else "O") ∧
    g2.moves = g.moves ++ [{ id := "m-" ++ toString (g.moves.length + 1),
                             gameId := toString g.id, playerId := pid,
                             row := row, col := col, timestamp := now }] ∧
    ((check_if_game_is_over g2.board).isSome →
      g2.status = Status.complete ∧
      g2.winnerId = (if check_if_game_is_over g2.board = some "TIE" then none else some pid) ∧
      g2.currentPlayerId = g.currentPlayerId) ∧
    (check_if_game_is_over g2.board = none →
      g2.status = g.status ∧
      g2.currentPlayerId = some (if p0.id = pid then p1.id else p0.id)) := by
  unfold make_move at hres
  split at hres
  · simp at hres
  split at hres
  · simp at hres
  split at hres
  · simp at hres
  split at hres
  · simp at hres
  rename_i h1 h2 h3 h4
  have hcur : g.currentPlayerId = some pid := not_not.mp h2
  have hcell : cell g.board row.toNat col.toNat = "" := not_not.mp h4
  have hrowlt : row.toNat < MATRIX_SIZE := by
    unfold MATRIX_SIZE at h3 ⊢
    omega
  have hcollt : col.toNat < MATRIX_SIZE := by
    unfold MATRIX_SIZE at h3 ⊢
    omega
  have hib : row.toNat < g.board.length := by rw [hwf.1]; exact hrowlt
  have hjb : col.toNat < (g.board.getD row.toNat []).length := by
    rw [BoardWF.row_length g.board hwf row.toNat hrowlt]
    exact hcollt
  have hsetcell : ∀ str : String,
      cell (setCell g.board row.toNat col.toNat str) row.toNat col.toNat = str :=
    fun str => cell_setCell_self g.board row.toNat col.toNat str hib hjb
  rw [hplayers] at hres
  split at hres
  · simp at hres
  rename_i idx hidx
  have hsym : (if idx = 0 then "X" else "O") = (if p0.id = pid then "X" else "O") := by
    by_cases hp0 : p0.id = pid
    · have h0 : idx = 0 := by
        simp [List.findIdx?_cons, hp0] at hidx
        omega
      simp [h0, hp0]
    · have h0 : idx ≠ 0 := by
        intro h0
        subst h0
        simp [List.findIdx?_cons, hp0, List.findIdx?_start_succ] at hidx
      simp [h0, hp0]
  generalize hsymgen : (if idx = 0 then "X" else "O") = sym at hres hsym
  dsimp only at hres
  split at hres
  · rename_i over hover
    simp only [Except.ok.injEq, Prod.mk.injEq, and_true] at hres
    have hg2 : g2 = end_game
        { g with
          board := setCell g.board row.toNat col.toNat sym
          players := [p0, p1]
          updatedAt := now
          moves := g.moves ++
            [{ id := "m-" ++ toString (g.moves.length + 1), gameId := toString g.id,
               playerId := pid, row := row, col := col, timestamp := now }]
          status := Status.complete
          winnerId := if over ≠ "TIE" then some pid else none } := hres.symm
    have hchk2 : check_if_game_is_over g2.board = some over := by
      rw [hg2, end_game_board]
      exact hover
    refine ⟨hcell, ?_, ?_, ?_, ?_⟩
    · rw [hg2, end_game_board]
      exact (hsetcell sym).trans hsym
    · rw [hg2, end_game_moves]
    · intro _
      refine ⟨by rw [hg2, end_game_status], ?_, by rw [hg2, end_game_currentPlayerId]⟩
      rw [hchk2, hg2, end_game_winnerId]
      by_cases hov : over = "TIE" <;> simp [hov]
    · intro hnone
      rw [hchk2] at hnone
      exact absurd hnone (by simp)
  · rename_i hover
    simp only [Except.ok.injEq, Prod.mk.injEq, and_true] at hres
    have hg2 : g2 =
        { g with
          board := setCell g.board row.toNat col.toNat sym
          players := [p0, p1]
          updatedAt := now
          moves := g.moves ++
            [{ id := "m-" ++ toString (g.moves.length + 1), gameId := toString g.id,
               playerId := pid, row := row, col := col, timestamp := now }]
          currentPlayerId :=
            if g.currentPlayerId = some (([p0, p1].getD 0 default).id) then
              some (([p0, p1].getD 1 default).id)
            else some (([p0, p1].getD 0 default).id) } := hres.symm
    have hchk2 : check_if_game_is_over g2.board = none := by
      rw [hg2]
      exact hover
    refine ⟨hcell, ?_, ?_, ?_, ?_⟩
    · rw [hg2]
      exact (hsetcell sym).trans hsym
    · rw [hg2]
    · intro hsome
      rw [hchk2] at hsome
      exact absurd hsome (by simp)
    · intro _
      refine ⟨by rw [hg2], ?_⟩
      rw [hg2]
      show (if g.currentPlayerId = some (([p0, p1].getD 0 default).id) then
              some (([p0, p1].getD 1 default).id)
            else some (([p0, p1].getD 0 default).id))
          = some (if p0.id = pid then p1.id else p0.id)
      rw [hcur]
      show (if some pid = some p0.id then some p1.id else some p0.id)
          = some (if p0.id = pid then p1.id else p0.id)
      by_cases hp0 : p0.id = pid
      · simp [hp0]
      · have hcond : ¬(some pid = some p0.id) := fun hc => hp0 (Option.some.inj hc).symm
        rw [if_neg hcond, if_neg hp0]

/-- The game state after the first accepted move of `startedGame`. -/
def movedGame : Game :=
  match make_move startedGame "A" 0 0 5 with
  | Except.ok (g, _) => g
  | Except.error _ => startedGame

/-- Witness for C2: the first move of a fresh game writes "X" at (0,0), appends
move "m-1" and hands the turn to the other participant. -/
theorem make_move_accepted_postconditions_witness :
    cell movedGame.board 0 0 = "X" ∧
    movedGame.moves = [{ id := "m-1", gameId := "1", playerId := "A",
                         row := 0, col := 0, timestamp := 5 }] ∧
    movedGame.currentPlayerId = some "B" := by
  have h := make_move_accepted_postconditions startedGame playerA playerB "A" 0 0 5 movedGame
    rfl (by decide) (by decide) rfl
  refine ⟨?_, ?_, ?_⟩
  · have := h.2.1
    simpa using this
  · have := h.2.2.1
    simpa using this
  · have := (h.2.2.2.2 rfl).2
    simpa using this

/-- Spec-side reading of "all cells equal and non-empty" for one line of the
board, the line given as the function from position to cell mark. -/
def AllEqualNonEmpty (c : Nat → String) : Prop :=
  (∀ k < MATRIX_SIZE, c k ≠ "") ∧ ∀ k < MATRIX_SIZE, ∀ l < MATRIX_SIZE, c k = c l

instance (c : Nat → String) : Decidable (AllEqualNonEmpty c) := by
  unfold AllEqualNonEmpty
  infer_instance

/-- Spec-side: some row, column, main diagonal or anti-diagonal has all cells
equal and non-empty. -/
def LineWinSpec (b : Board) : Prop :=
  (∃ i < MATRIX_SIZE, AllEqualNonEmpty (fun j => cell b i j)) ∨
  (∃ j < MATRIX_SIZE, AllEqualNonEmpty (fun i => cell b i j)) ∨
  AllEqualNonEmpty (fun i => cell b i i) ∨
  AllEqualNonEmpty (fun i => cell b i (MATRIX_SIZE - 1 - i))

instance (b : Board) : Decidable (LineWinSpec b) := by
  unfold LineWinSpec
  infer_instance

/-- Spec-side: every cell of the `MATRIX_SIZE × MATRIX_SIZE` grid is occupied. -/
def BoardFullSpec (b : Board) : Prop :=
  ∀ i < MATRIX_SIZE, ∀ j < MATRIX_SIZE, cell b i j ≠ ""

instance (b : Board) : Decidable (BoardFullSpec b) := by
  unfold BoardFullSpec
  infer_instance

theorem allEqualNonEmpty_iff (c : Nat → String) :
    (decide (c 0 ≠ "") && (List.range MATRIX_SIZE).all (fun k => c k == c 0)) = true ↔
      AllEqualNonEmpty c := by
  simp only [Bool.and_eq_true, decide_eq_true_eq, List.all_eq_true, List.mem_range, beq_iff_eq]
  constructor
  · rintro ⟨hne, hall⟩
    constructor
    · intro k hk
      rw [hall k hk]
      exact hne
    · intro k hk l hl
      rw [hall k hk, hall l hl]
  · rintro ⟨hne, heq⟩
    have h0 : (0 : Nat) < MATRIX_SIZE := by norm_num [MATRIX_SIZE]
    exact ⟨hne 0 h0, fun k hk => heq k hk 0 h0⟩

theorem rowWin_iff (b : Board) (i : Nat) :
    rowWin b i = true ↔ AllEqualNonEmpty (fun j => cell b i j) :=
  allEqualNonEmpty_iff (fun j => cell b i j)

theorem colWin_iff (b : Board) (j : Nat) :
    colWin b j = true ↔ AllEqualNonEmpty (fun i => cell b i j) :=
  allEqualNonEmpty_iff (fun i => cell b i j)

theorem mainDiagWin_iff (b : Board) :
    mainDiagWin b = true ↔ AllEqualNonEmpty (fun i => cell b i i) :=
  allEqualNonEmpty_iff (fun i => cell b i i)

theorem antiDiagWin_iff (b : Board) :
    antiDiagWin b = true ↔ AllEqualNonEmpty (fun i => cell b i (MATRIX_SIZE - 1 - i)) :=
  allEqualNonEmpty_iff (fun i => cell b i (MATRIX_SIZE - 1 - i))

theorem cell_eq_get (b : Board) (i j : Nat) (hjb : j < (b.getD i []).length) :
    cell b i j = (b.getD i []).get ⟨j, hjb⟩ := by
  unfold cell
  rw [List.getD_eq_getElem?_getD, List.getElem?_eq_getElem hjb, Option.getD_some,
    List.get_eq_getElem]

theorem getD_mem (b : Board) (i : Nat) (hib : i < b.length) : b.getD i [] ∈ b := by
  rw [List.getD_eq_getElem?_getD, List.getElem?_eq_getElem hib, Option.getD_some]
  exact List.getElem_mem hib

theorem boardFull_iff (b : Board) (hwf : BoardWF b) :
    boardFull b = true ↔ BoardFullSpec b := by
  unfold boardFull BoardFullSpec
  simp only [List.all_eq_true, decide_eq_true_eq]
  constructor
  · intro h i hi j hj
    have hib : i < b.length := by rw [hwf.1]; exact hi
    have hjb : j < (b.getD i []).length := by
      rw [BoardWF.row_length b hwf i hi]
      exact hj
    rw [cell_eq_get b i j hjb]
    exact h _ (getD_mem b i hib) _ (List.get_mem _ j hjb)
  · intro h row hrow x hx
    rcases List.mem_iff_get.mp hrow with ⟨⟨i, hib⟩, hrowEq⟩
    rcases List.mem_iff_get.mp hx with ⟨⟨j, hjx⟩, hxEq⟩
    have hi3 : i < MATRIX_SIZE := by rw [← hwf.1]; exact hib
    have hj3 : j < MATRIX_SIZE := by
      rw [← hwf.2 row hrow]
      exact hjx
    have h1 : b[i]? = some row := by
      rw [List.getElem?_eq_getElem hib, ← hrowEq, List.get_eq_getElem]
    have h2 : row[j]? = some x := by
      rw [List.getElem?_eq_getElem hjx, ← hxEq, List.get_eq_getElem]
    have hcx : cell b i j = x := by
      unfold cell
      simp only [List.getD_eq_getElem?_getD]
      rw [h1, Option.getD_some, h2, Option.getD_some]
    rw [← hcx]
    exact h i hi3 j hj3

theorem rowMsg_ne_TIE (k : Nat) (hk : k < MATRIX_SIZE) :
    ("Row " ++ toString k ++ " forms a line! Game is Over!") ≠ "TIE" := by
  unfold MATRIX_SIZE at hk
  interval_cases k <;> decide

theorem colMsg_ne_TIE (k : Nat) (hk : k < MATRIX_SIZE) :
    ("Column " ++ toString k ++ " forms a line! Game is Over!") ≠ "TIE" := by
  unfold MATRIX_SIZE at hk
  interval_cases k <;> decide

/-- C4: on a well-formed 3×3 board the pure terminal check — a function of the
board alone, with no effect on the game state — reports a line win (a `some`
other than "TIE") iff some row, column, main diagonal or anti-diagonal has all
cells equal and non-empty, reports "TIE" iff no such line exists and every cell
is occupied, and reports `none` otherwise; rows are examined before columns,
columns before the main diagonal, the main diagonal before the anti-diagonal,
and all line checks before the draw check. -/
theorem check_if_game_is_over_classification (b : Board) (hwf : BoardWF b) :
    (((check_if_game_is_over b).isSome ∧ check_if_game_is_over b ≠ some "TIE") ↔
      LineWinSpec b) ∧
    (check_if_game_is_over b = some "TIE" ↔ (¬ LineWinSpec b ∧ BoardFullSpec b)) ∧
    (check_if_game_is_over b = none ↔ (¬ LineWinSpec b ∧ ¬ BoardFullSpec b)) ∧
    (∀ i < MATRIX_SIZE, rowWin b i = true →
      ∃ k < MATRIX_SIZE, check_if_game_is_over b
        = some ("Row " ++ toString k ++ " forms a line! Game is Over!")) ∧
    (∀ j < MATRIX_SIZE, colWin b j = true → (∀ i < MATRIX_SIZE, rowWin b i = false) →
      ∃ k < MATRIX_SIZE, check_if_game_is_over b
        = some ("Column " ++ toString k ++ " forms a line! Game is Over!")) ∧
    (mainDiagWin b = true → (∀ i < MATRIX_SIZE, rowWin b i = false) →
      (∀ j < MATRIX_SIZE, colWin b j = false) →
      check_if_game_is_over b = some "Main diagonal forms a line! Game is Over!") ∧
    (antiDiagWin b = true → (∀ i < MATRIX_SIZE, rowWin b i = false) →
      (∀ j < MATRIX_SIZE, colWin b j = false) → mainDiagWin b = false →
      check_if_game_is_over b = some "Anti-diagonal forms a line! Game is Over!") := by
  cases hr : (List.range MATRIX_SIZE).find? (fun i => rowWin b i) with
  | some i =>
    have hi3 : i < MATRIX_SIZE := List.mem_range.mp (List.mem_of_find?_eq_some hr)
    have hiw : rowWin b i = true := List.find?_some hr
    have hline : LineWinSpec b := Or.inl ⟨i, hi3, (rowWin_iff b i).mp hiw⟩
    have hcheck : check_if_game_is_over b
        = some ("Row " ++ toString i ++ " forms a line! Game is Over!") := by
      unfold check_if_game_is_over
      rw [hr]
    rw [hcheck]
    refine ⟨?_, ?_, ?_, ?_, ?_, ?_, ?_⟩
    · exact ⟨fun _ => hline, fun _ => ⟨rfl, by simp [rowMsg_ne_TIE i hi3]⟩⟩
    · constructor
      · intro heq
        exact absurd (Option.some.inj heq) (rowMsg_ne_TIE i hi3)
      · rintro ⟨hnl, _⟩
        exact absurd hline hnl
    · constructor
      · intro hnone
        exact absurd hnone (by simp)
      · rintro ⟨hnl, _⟩
        exact absurd hline hnl
    · intro i2 _ _
      exact ⟨i, hi3, rfl⟩
    · intro j _ _ hnorow
      rw [hnorow i hi3] at hiw
      exact absurd hiw (by simp)
    · intro _ hnorow _
      rw [hnorow i hi3] at hiw
      exact absurd hiw (by simp)
    · intro _ hnorow _ _
      rw [hnorow i hi3] at hiw
      exact absurd hiw (by simp)
  | none =>
    have hnorow : ∀ i < MATRIX_SIZE, rowWin b i = false := by
      intro i hi
      have := List.find?_eq_none.mp hr i (List.mem_range.mpr hi)
      simpa using this
    have hnorowspec : ∀ i < MATRIX_SIZE, ¬ AllEqualNonEmpty (fun j => cell b i j) := by
      intro i hi hA
      have := (rowWin_iff b i).mpr hA
      rw [hnorow i hi] at this
      exact absurd this (by simp)
    cases hc : (List.range MATRIX_SIZE).find? (fun j => colWin b j) with
    | some j =>
      have hj3 : j < MATRIX_SIZE := List.mem_range.mp (List.mem_of_find?_eq_some hc)
      have hjw : colWin b j = true := List.find?_some hc
      have hline : LineWinSpec b := Or.inr (Or.inl ⟨j, hj3, (colWin_iff b j).mp hjw⟩)
      have hcheck : check_if_game_is_over b
          = some ("Column " ++ toString j ++ " forms a line! Game is Over!") := by
        unfold check_if_game_is_over
        rw [hr, hc]
      rw [hcheck]
      refine ⟨?_, ?_, ?_, ?_, ?_, ?_, ?_⟩
      · exact ⟨fun _ => hline, fun _ => ⟨rfl, by simp [colMsg_ne_TIE j hj3]⟩⟩
      · constructor
        · intro heq
          exact absurd (Option.some.inj heq) (colMsg_ne_TIE j hj3)
        · rintro ⟨hnl, _⟩
          exact absurd hline hnl
      · constructor
        · intro hnone
          exact absurd hnone (by simp)
        · rintro ⟨hnl, _⟩
          exact absurd hline hnl
      · intro i2 hi2 hw2
        rw [hnorow i2 hi2] at hw2
        exact absurd hw2 (by simp)
      · intro j2 _ _ _
        exact ⟨j, hj3, rfl⟩
      · intro _ _ hnocol
        rw [hnocol j hj3] at hjw
        exact absurd hjw (by simp)
      · intro _ _ hnocol _
        rw [hnocol j hj3] at hjw
        exact absurd hjw (by simp)
    | none =>
      have hnocol : ∀ j < MATRIX_SIZE, colWin b j = false := by
        intro j hj
        have := List.find?_eq_none.mp hc j (List.mem_range.mpr hj)
        simpa using this
      have hnocolspec : ∀ j < MATRIX_SIZE, ¬ AllEqualNonEmpty (fun i => cell b i j) := by
        intro j hj hA
        have := (colWin_iff b j).mpr hA
        rw [hnocol j hj] at this
        exact absurd this (by simp)
      by_cases hmd : mainDiagWin b = true
      · have hline : LineWinSpec b := Or.inr (Or.inr (Or.inl ((mainDiagWin_iff b).mp hmd)))
        have hcheck : check_if_game_is_over b
            = some "Main diagonal forms a line! Game is Over!" := by
          unfold check_if_game_is_over
          rw [hr, hc, if_pos hmd]
        rw [hcheck]
        refine ⟨?_, ?_, ?_, ?_, ?_, ?_, ?_⟩
        · exact ⟨fun _ => hline, fun _ => ⟨rfl, by decide⟩⟩
        · constructor
          · intro heq
            exact absurd heq (by decide)
          · rintro ⟨hnl, _⟩
            exact absurd hline hnl
        · constructor
          · intro hnone
            exact absurd hnone (by simp)
          · rintro ⟨hnl, _⟩
            exact absurd hline hnl
        · intro i2 hi2 hw2
          rw [hnorow i2 hi2] at hw2
          exact absurd hw2 (by simp)
        · intro j2 hj2 hw2 _
          rw [hnocol j2 hj2] at hw2
          exact absurd hw2 (by simp)
        · intro _ _ _
          rfl
        · intro _ _ _ hmdf
          rw [hmdf] at hmd
          exact absurd hmd (by simp)
      · by_cases had : antiDiagWin b = true
        · have hline : LineWinSpec b := Or.inr (Or.inr (Or.inr ((antiDiagWin_iff b).mp had)))
          have hcheck : check_if_game_is_over b
              = some "Anti-diagonal forms a line! Game is Over!" := by
            unfold check_if_game_is_over
            rw [hr, hc, if_neg hmd, if_pos had]
          rw [hcheck]
          refine ⟨?_, ?_, ?_, ?_, ?_, ?_, ?_⟩
          · exact ⟨fun _ => hline, fun _ => ⟨rfl, by decide⟩⟩
          · constructor
            · intro heq
              exact absurd heq (by decide)
            · rintro ⟨hnl, _⟩
              exact absurd hline hnl
          · constructor
            · intro hnone
              exact absurd hnone (by simp)
            · rintro ⟨hnl, _⟩
              exact absurd hline hnl
          · intro i2 hi2 hw2
            rw [hnorow i2 hi2] at hw2
            exact absurd hw2 (by simp)
          · intro j2 hj2 hw2 _
            rw [hnocol j2 hj2] at hw2
            exact absurd hw2 (by simp)
          · intro hmdw _ _
            exact absurd hmdw hmd
          · intro _ _ _ _
            rfl
        · have hnoline : ¬ LineWinSpec b := by
            rintro (⟨i, hi, hA⟩ | ⟨j, hj, hA⟩ | hA | hA)
            · exact hnorowspec i hi hA
            · exact hnocolspec j hj hA
            · exact hmd ((mainDiagWin_iff b).mpr hA)
            · exact had ((antiDiagWin_iff b).mpr hA)
          by_cases hfull : boardFull b = true
          · have hcheck : check_if_game_is_over b = some "TIE" := by
              unfold check_if_game_is_over
              rw [hr, hc, if_neg hmd, if_neg had, if_pos hfull]
            rw [hcheck]
            refine ⟨?_, ?_, ?_, ?_, ?_, ?_, ?_⟩
            · constructor
              · rintro ⟨_, hne⟩
                exact absurd rfl hne
              · intro hl
                exact absurd hl hnoline
            · exact ⟨fun _ => ⟨hnoline, (boardFull_iff b hwf).mp hfull⟩, fun _ => rfl⟩
            · constructor
              · intro hnone
                exact absurd hnone (by simp)
              · rintro ⟨_, hnf⟩
                exact absurd ((boardFull_iff b hwf).mp hfull) hnf
            · intro i2 hi2 hw2
              rw [hnorow i2 hi2] at hw2
              exact absurd hw2 (by simp)
            · intro j2 hj2 hw2 _
              rw [hnocol j2 hj2] at hw2
              exact absurd hw2 (by simp)
            · intro hmdw _ _
              exact absurd hmdw hmd
            · intro hadw _ _ _
              exact absurd hadw had
          · have hcheck : check_if_game_is_over b = none := by
              unfold check_if_game_is_over
              rw [hr, hc, if_neg hmd, if_neg had, if_neg hfull]
            rw [hcheck]
            refine ⟨?_, ?_, ?_, ?_, ?_, ?_, ?_⟩
            · constructor
              · rintro ⟨hs, _⟩
                exact absurd hs (by simp)
              · intro hl
                exact absurd hl hnoline
            · constructor
              · intro heq
                exact absurd heq (by simp)
              · rintro ⟨_, hf⟩
                exact absurd ((boardFull_iff b hwf).mpr hf) hfull
            · exact ⟨fun _ => ⟨hnoline, fun hf => hfull ((boardFull_iff b hwf).mpr hf)⟩,
                fun _ => rfl⟩
            · intro i2 hi2 hw2
              rw [hnorow i2 hi2] at hw2
              exact absurd hw2 (by simp)
            · intro j2 hj2 hw2 _
              rw [hnocol j2 hj2] at hw2
              exact absurd hw2 (by simp)
            · intro hmdw _ _
              exact absurd hmdw hmd
            · intro hadw _ _ _
              exact absurd hadw had

/-- Witness for C4 at the spec's draw scenario board and at a row-win board. -/
theorem check_if_game_is_over_classification_witness :
    check_if_game_is_over [["X", "O", "X"], ["O", "X", "O"], ["O", "X", "O"]] = some "TIE" ∧
    ((check_if_game_is_over [["X", "X", "X"], ["O", "O", ""], ["", "", ""]]).isSome ∧
      check_if_game_is_over [["X", "X", "X"], ["O", "O", ""], ["", "", ""]] ≠ some "TIE") := by
  constructor
  · exact (check_if_game_is_over_classification
      [["X", "O", "X"], ["O", "X", "O"], ["O", "X", "O"]] (by decide)).2.1.mpr
      ⟨by decide, by decide⟩
  · exact (check_if_game_is_over_classification
      [["X", "X", "X"], ["O", "O", ""], ["", "", ""]] (by decide)).1.mpr (by decide)

/-- A registry-level operation: `create_game` or `remove_game`. -/
inductive RegistryOp where
  | create (name : String)
  | remove (game_id : Nat)

/-- Runs a sequence of registry operations, collecting the identifiers handed
out by the `create_game` calls in order. -/
def runOps : GameFactory → List RegistryOp → GameFactory × List Nat
  | f, [] => (f, [])
  | f, RegistryOp.create name :: rest =>
    let r := GameFactory.create_game f name
    let rr := runOps r.2 rest
    (rr.1, r.1.id :: rr.2)
  | f, RegistryOp.remove gid :: rest => runOps (GameFactory.remove_game f gid).2 rest

theorem runOps_ids (f : GameFactory) (ops : List RegistryOp) :
    List.Pairwise (· < ·) (runOps f ops).2 ∧ ∀ n ∈ (runOps f ops).2, f.next_id ≤ n := by
  induction ops generalizing f with
  | nil =>
    simp [runOps]
  | cons op rest ih =>
    cases op with
    | create name =>
      have hnext : (GameFactory.create_game f name).2.next_id = f.next_id + 1 := rfl
      have hid : (GameFactory.create_game f name).1.id = f.next_id := rfl
      have h := ih (GameFactory.create_game f name).2
      simp only [runOps]
      constructor
      · refine List.Pairwise.cons ?_ h.1
        intro n hn
        have hb := h.2 n hn
        rw [hnext] at hb
        rw [hid]
        omega
      · intro n hn
        rcases List.mem_cons.mp hn with h1 | h1
        · rw [h1, hid]
        · have hb := h.2 n h1
          rw [hnext] at hb
          omega
    | remove gid =>
      have hnext : (GameFactory.remove_game f gid).2.next_id = f.next_id := rfl
      have h := ih (GameFactory.remove_game f gid).2
      simp only [runOps]
      refine ⟨h.1, fun n hn => ?_⟩
      have := h.2 n hn
      rw [hnext] at this
      exact this

/-- Well-formed move history at clock reading `t`: the k-th stored move (0-based)
carries identifier `m-(k+1)`, timestamps are non-decreasing along the history,
and no timestamp exceeds `t`. -/
def MovesWF (ms : List Move) (t : Nat) : Prop :=
  (∀ k, k < ms.length → (ms.getD k default).id = "m-" ++ toString (k + 1)) ∧
  (∀ k, k < ms.length → k + 1 < ms.length →
    (ms.getD k default).timestamp ≤ (ms.getD (k + 1) default).timestamp) ∧
  (∀ k, k < ms.length → (ms.getD k default).timestamp ≤ t)

instance (ms : List Move) (t : Nat) : Decidable (MovesWF ms t) := by
  unfold MovesWF
  infer_instance

theorem getD_append_left {α : Type} (l₁ l₂ : List α) (k : Nat) (d : α) (h : k < l₁.length) :
    (l₁ ++ l₂).getD k d = l₁.getD k d := by
  simp only [List.getD_eq_getElem?_getD]
  rw [List.getElem?_append]
  simp [h]

theorem getD_concat_length {α : Type} (l : List α) (a : α) (d : α) :
    (l ++ [a]).getD l.length d = a := by
  simp only [List.getD_eq_getElem?_getD]
  rw [List.getElem?_concat_length]
  rfl

theorem movesWF_append (ms : List Move) (t now : Nat) (h : MovesWF ms t) (hle : t ≤ now)
    (mv : Move) (hid : mv.id = "m-" ++ toString (ms.length + 1)) (hts : mv.timestamp = now) :
    MovesWF (ms ++ [mv]) now := by
  refine ⟨?_, ?_, ?_⟩
  · intro k hk
    simp only [List.length_append, List.length_singleton] at hk
    by_cases hklt : k < ms.length
    · rw [getD_append_left _ _ _ _ hklt]
      exact h.1 k hklt
    · have hkeq : k = ms.length := by omega
      subst hkeq
      rw [getD_concat_length]
      exact hid
  · intro k hk hksucc
    simp only [List.length_append, List.length_singleton] at hk hksucc
    by_cases hk1 : k + 1 < ms.length
    · rw [getD_append_left _ _ _ _ hk1, getD_append_left _ _ _ _ (by omega)]
      exact h.2.1 k (by omega) hk1
    · have hkeq : k + 1 = ms.length := by omega
      rw [getD_append_left _ _ _ _ (by omega), hkeq, getD_concat_length, hts]
      exact le_trans (h.2.2 k (by omega)) hle
  · intro k hk
    simp only [List.length_append, List.length_singleton] at hk
    by_cases hklt : k < ms.length
    · rw [getD_append_left _ _ _ _ hklt]
      exact le_trans (h.2.2 k hklt) hle
    · have hkeq : k = ms.length := by omega
      subst hkeq
      rw [getD_concat_length, hts]

theorem make_move_moves_wf (g : Game) (pid : String) (row col : Int) (now t : Nat)
    (g2 : Game) (acc : Bool) (hwf : MovesWF g.moves t) (hle : t ≤ now)
    (hres : make_move g pid row col now = Except.ok (g2, acc)) : MovesWF g2.moves now := by
  have hmono : MovesWF g.moves now :=
    ⟨hwf.1, hwf.2.1, fun k hk => le_trans (hwf.2.2 k hk) hle⟩
  unfold make_move at hres
  split at hres
  · simp only [Except.ok.injEq, Prod.mk.injEq] at hres
    rw [← hres.1]
    exact hmono
  split at hres
  · simp only [Except.ok.injEq, Prod.mk.injEq] at hres
    rw [← hres.1]
    exact hmono
  split at hres
  · simp only [Except.ok.injEq, Prod.mk.injEq] at hres
    rw [← hres.1]
    exact hmono
  split at hres
  · simp only [Except.ok.injEq, Prod.mk.injEq] at hres
    rw [← hres.1]
    exact hmono
  split at hres
  · simp at hres
  rename_i idx hidx
  generalize hsymgen : (if idx = 0 then "X" else "O") = sym at hres
  dsimp only at hres
  have happ : MovesWF (g.moves ++
      [{ id := "m-" ++ toString (g.moves.length + 1), gameId := toString g.id,
         playerId := pid, row := row, col := col, timestamp := now }]) now :=
    movesWF_append g.moves t now hwf hle _ rfl rfl
  split at hres
  · simp only [Except.ok.injEq, Prod.mk.injEq] at hres
    rw [← hres.1]
    exact happ
  · simp only [Except.ok.injEq, Prod.mk.injEq] at hres
    rw [← hres.1]
    exact happ

/-- C9: identifiers handed out by the registry are strictly increasing across
any sequence of create/remove operations (never reused, even after removals);
and an accepted move appended to a well-formed history keeps it well-formed —
the Nth accepted move carries sequence identifier `m-N` and a timestamp not
earlier than its predecessor's, provided the clock reading does not run
backwards (`t ≤ now`). -/
theorem identifier_and_move_ordering :
    (∀ ops : List RegistryOp, List.Pairwise (· < ·) (runOps {} ops).2) ∧
    (∀ (g : Game) (pid : String) (row col : Int) (now t : Nat) (g2 : Game) (acc : Bool),
      MovesWF g.moves t → t ≤ now →
      make_move g pid row col now = Except.ok (g2, acc) → MovesWF g2.moves now) := by
  constructor
  · intro ops
    exact (runOps_ids {} ops).1
  · intro g pid row col now t g2 acc h1 h2 h3
    exact make_move_moves_wf g pid row col now t g2 acc h1 h2 h3

/-- Witness for C9: a create/remove/create run hands out strictly increasing
identifiers, and the first accepted move of `startedGame` leaves a well-formed
one-element history. -/
theorem identifier_and_move_ordering_witness :
    List.Pairwise (· < ·)
      (runOps {} [RegistryOp.create "a", RegistryOp.remove 1, RegistryOp.create "b"]).2 ∧
    MovesWF movedGame.moves 5 := by
  constructor
  · exact identifier_and_move_ordering.1
      [RegistryOp.create "a", RegistryOp.remove 1, RegistryOp.create "b"]
  · exact identifier_and_move_ordering.2 startedGame "A" 0 0 5 0 movedGame true
      (by decide) (by omega) rfl

end TicTacToe
